import Mathlib

/-!
Verification of the specgen interpretation engine.

This file gives a shallow embedding, in Lean 4, of the JSON-interpretation
core of the specgen repository (`src/public/app.js`, `interpretJson` and its
helpers, plus the flow-synthesis dispatch of `src/public/interpreter.js` and
the simulator-slice injection of the UI layer), and proves properties of the
embedded functions.

Modelling conventions:
- JS strings are Lean `String`s; an absent string field is modelled as `""`
  (JS `undefined` is falsy, compares unequal to every non-empty literal, and
  `undefined === undefined` is true, matching `"" = ""`).
- Absent arrays are modelled as `[]` (the code guards every array access with
  `|| []` or `?.`).
- JS `Set` insertion order is modelled by `addIfAbsent` on lists; JS object
  key insertion-with-overwrite order is modelled by `upsert` on entry lists.
- `JSON.parse` is external; the parsed input is modelled by `ParsedInput`,
  distinguishing a parse error, a falsy/non-array `slices` field, and a
  proper slice array.
-/

namespace Specgen

/-- JS `a || b` for strings: `""` is falsy. -/
def jsOr (s dflt : String) : String :=
  if s = "" then dflt else s

/-- JS `Array.prototype.join(sep)`. -/
def jsJoin (sep : String) : List String → String
  | [] => ""
  | [x] => x
  | x :: y :: xs => x ++ sep ++ jsJoin sep (y :: xs)

/-- Is `p` a prefix of `s` (on character lists)? -/
def isPrefixChars : List Char → List Char → Bool
  | [], _ => true
  | _ :: _, [] => false
  | p :: ps, c :: cs => p = c && isPrefixChars ps cs

/-- Does `pat` occur as a contiguous substring of `s` (on character lists)? -/
def containsSubChars (pat : List Char) : List Char → Bool
  | [] => pat.isEmpty
  | c :: cs => isPrefixChars pat (c :: cs) || containsSubChars pat cs

/-- JS `String.prototype.includes`. -/
def jsIncludes (s pat : String) : Bool :=
  containsSubChars pat.data s.data

/-- JS `String.prototype.toLowerCase` (character-wise; the source only ever
compares against ASCII keywords). -/
def jsToLower (s : String) : String :=
  String.mk (s.data.map Char.toLower)

/-- JS `String(x).replace(/"/g, "")`: drop every double-quote character. -/
def stripQuotes (s : String) : String :=
  String.mk (s.data.filter (fun c => c ≠ '"'))

/-- JS `Set.prototype.add` on an insertion-ordered list of distinct keys. -/
def addIfAbsent (xs : List String) (x : String) : List String :=
  if xs.contains x then xs else xs ++ [x]

/-- Basic facts used throughout. -/
theorem jsIncludes_empty_pat (s : String) : jsIncludes s "" = true := by
  cases s with
  | mk data =>
    cases data <;> simp [jsIncludes, containsSubChars, isPrefixChars]

theorem mem_addIfAbsent (xs : List String) (x y : String) :
    y ∈ addIfAbsent xs x ↔ y ∈ xs ∨ y = x := by
  unfold addIfAbsent
  by_cases h : xs.contains x
  · simp only [h, if_pos]
    constructor
    · exact fun hy => Or.inl hy
    · rintro (hy | rfl)
      · exact hy
      · simpa using h
  · simp only [h]
    simp

theorem jsJoin_ne_empty (sep : String) (ts : List String)
    (hne : ts ≠ []) (hall : ∀ t ∈ ts, t ≠ "") : jsJoin sep ts ≠ "" := by
  match ts with
  | [] => exact absurd rfl hne
  | [x] =>
    simpa [jsJoin] using hall x (by simp)
  | x :: y :: xs =>
    have hx : x ≠ "" := hall x (by simp)
    simp only [jsJoin]
    intro hcontr
    have hlen : (x ++ sep ++ jsJoin sep (y :: xs)).length = 0 := by
      rw [hcontr]; rfl
    rw [String.length_append, String.length_append] at hlen
    have hxlen : x.length ≠ 0 := by
      intro h0
      exact hx (String.ext (List.length_eq_zero.mp h0))
    omega

/-! ## Input data model (the parsed JSON document, §3 of the spec) -/

/-- A dependency entry of an element (`d.elementType`, `d.type`, `d.id`,
`d.elementTitle` in the source).  Absent fields are `""`. -/
structure Dependency where
  elementType : String
  type : String
  id : String
  elementTitle : String
  deriving Repr, DecidableEq

/-- A document element (command, event, read model or screen).  The source
stores raw duck-typed JSON objects; all four kinds share this shape.
`context = "EXTERNAL"` marks an external event. -/
structure Elem where
  id : String
  title : String
  description : String
  context : String
  dependencies : List Dependency
  deriving Repr, DecidableEq

/-- A field of a behavioral-specification step.  `exampleValue` models the JS
`example` property (a Lean keyword): `none` when the JS value is `undefined`
or `null`, otherwise `String(field.example)`. -/
structure Field where
  name : String
  exampleValue : Option String
  deriving Repr, DecidableEq

/-- One entry of a step's `examples` array: either a non-object value
(already stringified) or a plain object (entries with stringified values). -/
inductive ExampleVal where
  | prim (value : String)
  | obj (entries : List (String × String))
  deriving Repr, DecidableEq

/-- A given/when/then step.  `fields`/`examples` are `none` when the JS field
is not an array (`Array.isArray` fails). -/
structure Step where
  title : String
  type : String
  fields : Option (List Field)
  examples : Option (List ExampleVal)
  deriving Repr, DecidableEq

/-- A behavioral specification; `comments` holds the comment descriptions. -/
structure SpecTest where
  title : String
  comments : Option (List String)
  given : List Step
  whenSteps : List Step
  thenSteps : List Step
  deriving Repr, DecidableEq

/-- One slice of the input document.  Absent arrays are `[]`; an absent
`sliceType` is `""` (falsy). -/
structure SliceInput where
  title : String
  sliceType : String
  commands : List Elem
  events : List Elem
  screens : List Elem
  readmodels : List Elem
  specifications : List SpecTest
  deriving Repr, DecidableEq

/-- Shape of the root object after `JSON.parse` succeeded: the `slices`
field is falsy, truthy-but-not-an-array, or an array. -/
inductive SlicesField where
  | missing
  | notArray
  | arr (slices : List SliceInput)
  deriving Repr, DecidableEq

/-- Input to `interpretJson`: either `JSON.parse` threw (with a message) or
it produced a root object. -/
inductive ParsedInput where
  | parseError (msg : String)
  | parsed (slices : SlicesField)
  deriving Repr, DecidableEq

/-! ## Output data model -/

/-- A derived flow step (`{ type, title, description }` in the source). -/
structure FlowStep where
  type : String
  title : String
  description : String
  deriving Repr, DecidableEq

/-- A `{ title, description }` pair in the output slice object. -/
structure TitleDesc where
  title : String
  description : String
  deriving Repr, DecidableEq

/-- A rendered behavioral step (`{ title, type, fields }`). -/
structure RenderedStep where
  title : String
  type : String
  fields : String
  deriving Repr, DecidableEq

/-- A rendered behavioral test. -/
structure BddTest where
  title : String
  comments : List String
  given : List RenderedStep
  whenSteps : List RenderedStep
  thenSteps : List RenderedStep
  deriving Repr, DecidableEq

/-- The `readmodelDetails` record of a STATE_VIEW slice. -/
structure ReadmodelDetails where
  existsFlag : Bool
  inboundEvents : String
  outboundEvents : String
  eventsSubscribedTo : String
  consumer : String
  todoList : Bool
  totalInboundEvents : Nat
  totalOutboundEvents : Nat
  deriving Repr, DecidableEq

/-- The enriched slice object pushed onto `result.slices`. -/
structure SliceObj where
  index : Nat
  title : String
  sliceType : String
  flow : List FlowStep
  visualFlow : String
  commands : List TitleDesc
  events : List TitleDesc
  externalEvents : List TitleDesc
  screens : List TitleDesc
  readmodels : List TitleDesc
  readmodelDetails : Option ReadmodelDetails
  bddTests : List BddTest
  deriving Repr, DecidableEq

/-- The global summary.  `sliceDetails` is the list of per-slice objects. -/
structure Summary where
  totalSlices : Nat
  totalCommands : Nat
  totalEvents : Nat
  totalExternalEvents : Nat
  totalScreens : Nat
  totalReadModels : Nat
  totalSpecifications : Nat
  sliceDetails : List SliceObj
  deriving Repr, DecidableEq

/-- The result of `interpretJson`.  `summary` is `none` on the early-return
paths (the source leaves the initial empty object `{}` in place there). -/
structure InterpretResult where
  summary : Option Summary
  slices : List SliceObj
  warnings : List String
  deriving Repr, DecidableEq

/-! ## Cross-reference indexer (`buildEventLookup` / `buildElementLookup`) -/

/-- JS `lookup[key] = value` on an insertion-ordered entry list: overwrite in
place if the key exists, else append. -/
def upsert (entries : List (String × Elem)) (e : Elem) : List (String × Elem) :=
  if entries.any (fun p => p.1 = e.id) then
    entries.map (fun p => if p.1 = e.id then (p.1, e) else p)
  else
    entries ++ [(e.id, e)]

/-- Read a key from an entry list (JS `lookup[id]`). -/
def lookupIn (entries : List (String × Elem)) (id : String) : Option Elem :=
  (entries.find? (fun p => p.1 = id)).map (fun p => p.2)

/-- `buildEventLookup`: scan every slice's events in document order,
last-wins on duplicate ids. -/
def buildEventEntries (slices : List SliceInput) : List (String × Elem) :=
  slices.foldl (fun lk slice => slice.events.foldl upsert lk) []

/-- `buildElementLookup`: scan commands, events, readmodels and screens of
every slice in document order, last-wins on duplicate ids. -/
def buildElementEntries (slices : List SliceInput) : List (String × Elem) :=
  slices.foldl
    (fun lk slice =>
      [slice.commands, slice.events, slice.readmodels, slice.screens].foldl
        (fun lk group => group.foldl upsert lk) lk)
    []

/-- `eventLookup[id] || elementLookup[id]`: resolve an id via the event index
with fallback to the generic element index. -/
def resolveRef (evE elemE : List (String × Elem)) (id : String) : Option Elem :=
  match lookupIn evE id with
  | some e => some e
  | none => lookupIn elemE id

/-! ## Per-slice flow synthesis (app.js `interpretJson`, lines 316–513) -/

/-- Event retitling: an event with `context === "EXTERNAL"` gets the marked
display title (`processedEvents` in the source; all other fields kept). -/
def processedEventsOf (events : List Elem) : List Elem :=
  events.map (fun e =>
    { e with title := if e.context = "EXTERNAL" then "**EXTERNAL:** " ++ e.title else e.title })

/-- One step of the pass over the read model's dependency list: insert the
id into the INBOUND or OUTBOUND event-dependency id set as appropriate. -/
def declStep (p : List String × List String) (dep : Dependency) : List String × List String :=
  let p1 := if dep.elementType = "EVENT" && dep.type = "INBOUND" then addIfAbsent p.1 dep.id else p.1
  let p2 := if dep.elementType = "EVENT" && dep.type = "OUTBOUND" then addIfAbsent p.2 dep.id else p.2
  (p1, p2)

/-- One pass over the read model's dependency list collecting the declared
INBOUND and OUTBOUND event-dependency id sets (insertion-ordered). -/
def declaredIds (rm : Elem) : List String × List String :=
  rm.dependencies.foldl declStep ([], [])

/-- The resolved inbound id set: the declared INBOUND ids extended with the
id of every event in the event index that carries an OUTBOUND READMODEL
dependency targeting this read model (reverse lookup over `Object.values`). -/
def inboundIdsOf (evE : List (String × Elem)) (rm : Elem) : List String :=
  evE.foldl
    (fun s p =>
      p.2.dependencies.foldl
        (fun s dep =>
          if dep.elementType = "READMODEL" && dep.id = rm.id && dep.type = "OUTBOUND" then
            addIfAbsent s p.2.id
          else s)
        s)
    (declaredIds rm).1

/-- The declared OUTBOUND event-dependency id set. -/
def outboundIdsOf (rm : Elem) : List String :=
  (declaredIds rm).2

/-- Inbound ids resolved through the event index with element-index fallback;
unresolved ids are dropped. -/
def inboundEventsOf (evE elemE : List (String × Elem)) (rm : Elem) : List Elem :=
  (inboundIdsOf evE rm).filterMap (resolveRef evE elemE)

/-- Outbound ids resolved the same way. -/
def outboundEventsOf (evE elemE : List (String × Elem)) (rm : Elem) : List Elem :=
  (outboundIdsOf rm).filterMap (resolveRef evE elemE)

/-- The STATE_CHANGE completion-slice heuristic of app.js (line 428): some
command title contains "prepared", "mark" or "complete", or some event title
contains "prepared" or "completed" (case-insensitively). -/
def isCompletionSlice (commands events : List Elem) : Bool :=
  commands.any (fun c =>
      jsIncludes (jsToLower c.title) "prepared" || jsIncludes (jsToLower c.title) "mark" ||
      jsIncludes (jsToLower c.title) "complete")
  || events.any (fun e =>
      jsIncludes (jsToLower e.title) "prepared" || jsIncludes (jsToLower e.title) "completed")

/-- The STATE_CHANGE flow: screens, then commands, then events in declaration
order; in a completion slice, events whose title contains "prepared" or
"completed" get an annotated title and a fixed completion description. -/
def stateChangeFlow (screens commands events : List Elem) : List FlowStep :=
  screens.map (fun s => FlowStep.mk "SCREEN" s.title (jsOr s.description "User interface"))
  ++ commands.map (fun c => FlowStep.mk "COMMAND" c.title (jsOr c.description "Command executed"))
  ++ events.map (fun e =>
      if isCompletionSlice commands events
          && (jsIncludes (jsToLower e.title) "prepared" || jsIncludes (jsToLower e.title) "completed") then
        FlowStep.mk "EVENT" ("**" ++ e.title ++ " (Completes To-Do List Item)**")
          "Completion event - marks item as done"
      else
        FlowStep.mk "EVENT" e.title (jsOr e.description "Event triggered"))

/-- Warning emitted when a STATE_VIEW slice has no read model. -/
def noReadModelMsg (sliceTitle : String) : String :=
  "STATE_VIEW slice \"" ++ sliceTitle ++ "\" has no ReadModel defined."

/-- The To-Do-List-Projection warning naming the ADD and REMOVE/DONE sets. -/
def todoWarningMsg (rmTitle : String) (inbound outbound : List Elem) : String :=
  "ReadModel \"" ++ rmTitle ++ "\" is a **To-Do List Projection** with "
  ++ toString inbound.length ++ " ADD event(s): ["
  ++ jsJoin ", " (inbound.map (fun e => e.title)) ++ "] and "
  ++ toString outbound.length ++ " REMOVE/DONE event(s): ["
  ++ jsJoin ", " (outbound.map (fun e => e.title)) ++ "]"

/-- Warning emitted when the resolved inbound-event set is empty. -/
def noInboundMsg (sliceTitle rmTitle : String) : String :=
  "STATE_VIEW slice \"" ++ sliceTitle ++ "\" ReadModel \"" ++ rmTitle
  ++ "\" has no inbound events."

/-- Warning emitted by the fallback branch for a truthy unrecognized type. -/
def unhandledTypeMsg (sliceTitle sliceType : String) : String :=
  "Slice \"" ++ sliceTitle ++ "\" has unhandled sliceType: " ++ sliceType

/-- Output of the per-slice flow-logic section: flow, the warnings pushed in
this section, the `readmodelDetails` record, and the two locals the visual
flow composer reads afterwards. -/
structure FlowOut where
  flow : List FlowStep
  warnings : List String
  details : Option ReadmodelDetails
  isTodo : Bool
  todoEvents : List Elem
  deriving Repr, DecidableEq

/-- The STATE_VIEW branch of the flow-logic dispatch, for a slice that has a
primary read model (app.js lines 349–426). -/
def stateViewFlow (evE elemE : List (String × Elem)) (sliceTitle : String)
    (screens : List Elem) (rm : Elem) : FlowOut :=
  let usedScreenIds : List String := []
  let inbound := inboundEventsOf evE elemE rm
  let outbound := outboundEventsOf evE elemE rm
  let outboundScreens := screens.filter (fun s =>
    !(usedScreenIds.contains s.id)
    && s.dependencies.any (fun d =>
        d.elementType = "READMODEL" && (d.id = rm.id || d.type = "INBOUND")))
  let isTodo := inbound.length != 0 && outbound.length != 0
  let todoEvents := outbound
  let rmDescription :=
    if isTodo then "State projection / **TODO list (Two-event pattern)**"
    else "State projection / User view"
  let rmDisplayTitle := if isTodo then "**TODO:** " ++ rm.title else rm.title
  let baseFlow :=
    inbound.map (fun e => FlowStep.mk "EVENT" e.title (jsOr e.description "Event that populates the read model"))
    ++ [FlowStep.mk "READMODEL" rmDisplayTitle rmDescription]
    ++ outboundScreens.map (fun s => FlowStep.mk "SCREEN" s.title (jsOr s.description "User view"))
  let flow2 :=
    if isTodo && todoEvents.length != 0 then
      baseFlow ++ todoEvents.map (fun e =>
        FlowStep.mk "EVENT" e.title ("Event that removes/completes items from " ++ rm.title))
    else baseFlow
  let w1 :=
    if isTodo && todoEvents.length != 0 then [todoWarningMsg rm.title inbound todoEvents]
    else []
  let w2 := if inbound.length = 0 then [noInboundMsg sliceTitle rm.title] else []
  { flow := flow2,
    warnings := w1 ++ w2,
    details := some
      { existsFlag := true,
        inboundEvents := jsOr (jsJoin ", " (inbound.map (fun e => e.title))) "(none)",
        outboundEvents := jsOr (jsJoin ", " (outbound.map (fun e => e.title))) "(none)",
        eventsSubscribedTo := jsOr (jsJoin ", " (inbound.map (fun e => e.title))) "(none)",
        consumer := jsOr (jsJoin ", " (outboundScreens.map (fun s => s.title))) "(none)",
        todoList := isTodo,
        totalInboundEvents := inbound.length,
        totalOutboundEvents := outbound.length },
    isTodo := isTodo,
    todoEvents := todoEvents }

/-- The flow-logic dispatch of app.js lines 339–451. -/
def synthFlow (evE elemE : List (String × Elem)) (slice : SliceInput) : FlowOut :=
  let events := processedEventsOf slice.events
  if slice.sliceType = "STATE_VIEW" then
    match slice.readmodels.head? with
    | none =>
      { flow := [], warnings := [noReadModelMsg slice.title], details := none,
        isTodo := false, todoEvents := [] }
    | some rm => stateViewFlow evE elemE slice.title slice.screens rm
  else if slice.sliceType = "STATE_CHANGE" then
    { flow := stateChangeFlow slice.screens slice.commands events, warnings := [],
      details := none, isTodo := false, todoEvents := [] }
  else
    { flow :=
        slice.screens.map (fun s => FlowStep.mk "SCREEN" s.title (jsOr s.description ""))
        ++ slice.commands.map (fun c => FlowStep.mk "COMMAND" c.title (jsOr c.description ""))
        ++ events.map (fun e => FlowStep.mk "EVENT" e.title (jsOr e.description "")),
      warnings := if slice.sliceType ≠ "" then [unhandledTypeMsg slice.title slice.sliceType] else [],
      details := none, isTodo := false, todoEvents := [] }

/-! ## Visual flow composition (app.js lines 453–483) -/

/-- Deduplicated forward element list of a two-event STATE_VIEW slice:
exclude flow steps whose title contains a completion-event title, empty
titles, and repetitions of a `type:title` key (first occurrence kept). -/
def forwardFilter (todoEvents : List Elem) (seen : List String) : List FlowStep → List String
  | [] => []
  | f :: fs =>
    let key := f.type ++ ":" ++ f.title
    if todoEvents.any (fun e => jsIncludes f.title e.title) || f.title = "" || seen.contains key then
      forwardFilter todoEvents seen fs
    else
      f.title :: forwardFilter todoEvents (seen ++ [key]) fs

/-- Default composer: first occurrence per exact title, empty titles dropped. -/
def dedupTitles (seen : List String) : List FlowStep → List String
  | [] => []
  | f :: fs =>
    if f.title = "" || seen.contains f.title then dedupTitles seen fs
    else f.title :: dedupTitles (seen ++ [f.title]) fs

/-- The pivot-splice composition for a two-event STATE_VIEW slice: find the
read model in the deduplicated forward list (by marked or plain title) and
splice the back-reference token right after it; degrade to the plain join
when the read model is not found or the joined completion titles are falsy. -/
def composePivot (rm : Elem) (fo : FlowOut) : String :=
  let rmDisplayTitle := "**TODO:** " ++ rm.title
  let completionEventTitles := jsJoin ", " (fo.todoEvents.map (fun e => e.title))
  let forward := forwardFilter fo.todoEvents [] fo.flow
  match forward.findIdx? (fun t => jsIncludes t rmDisplayTitle || jsIncludes t rm.title) with
  | some i =>
    if completionEventTitles ≠ "" then
      jsJoin " ➜ " (forward.take (i + 1) ++ ("**⇠** " ++ completionEventTitles) :: forward.drop (i + 1))
    else jsJoin " ➜ " forward
  | none => jsJoin " ➜ " forward

/-- The visual-flow string of one slice (app.js lines 453–483). -/
def composeVisualFlow (slice : SliceInput) (fo : FlowOut) : String :=
  match slice.readmodels.head? with
  | some rm =>
    if slice.sliceType = "STATE_VIEW" ∧ fo.isTodo = true ∧ fo.todoEvents.length ≠ 0 then
      composePivot rm fo
    else jsJoin " ➜ " (dedupTitles [] fo.flow)
  | none => jsJoin " ➜ " (dedupTitles [] fo.flow)

/-! ## BDD normalization (app.js lines 213–253 and 486–499) -/

/-- `formatFields`: comma-joined `name=value` pairs, nameless entries
dropped, quotes stripped from stringified example values, `"(none)"` for an
absent or empty list. -/
def formatFields (fields : Option (List Field)) : String :=
  match fields with
  | none => "(none)"
  | some [] => "(none)"
  | some fs =>
    jsJoin ", "
      ((fs.map (fun f =>
          if f.name = "" then ""
          else f.name ++ "=" ++ (match f.exampleValue with | some v => stripQuotes v | none => ""))).filter
        (fun s => s ≠ ""))

/-- `formatReadModelExamples`: semicolon-joined parenthesized groups. -/
def formatReadModelExamples (examples : List ExampleVal) : String :=
  match examples with
  | [] => "(none)"
  | _ =>
    jsJoin "; " (examples.map (fun ex =>
      match ex with
      | .prim v => "(" ++ stripQuotes v ++ ")"
      | .obj entries =>
        "(" ++ jsJoin ", " (entries.map (fun kv => kv.1 ++ "=" ++ stripQuotes kv.2)) ++ ")"))

/-- The fields/examples conflict warning (app.js line 493). -/
def conflictMsg (specTitle stepTitle : String) : String :=
  "BDD Specification \"" ++ specTitle ++ "\" step \x27" ++ stepTitle
  ++ "\x27 has both \x27fields\x27 and \x27examples\x27. Using \x27examples\x27 only."

/-- Render one step; returns the rendered step and the warnings pushed. -/
def mapStep (specTitle : String) (step : Step) : RenderedStep × List String :=
  match step.examples with
  | some exs =>
    if exs.length != 0 then
      ({ title := step.title, type := step.type, fields := formatReadModelExamples exs },
       match step.fields with
       | some fs => if fs.length != 0 then [conflictMsg specTitle step.title] else []
       | none => [])
    else
      ({ title := step.title, type := step.type, fields := formatFields step.fields }, [])
  | none => ({ title := step.title, type := step.type, fields := formatFields step.fields }, [])

/-- Map a producer over a list, concatenating the warning streams in order. -/
def collectPairs {α β : Type} (f : α → β × List String) (xs : List α) : List β × List String :=
  xs.foldl (fun acc x => (acc.1 ++ [(f x).1], acc.2 ++ (f x).2)) ([], [])

/-- Render a step sequence in order. -/
def mapSteps (specTitle : String) (steps : List Step) : List RenderedStep × List String :=
  collectPairs (mapStep specTitle) steps

/-- Render one behavioral specification. -/
def buildBddTest (spec : SpecTest) : BddTest × List String :=
  let g := mapSteps spec.title spec.given
  let w := mapSteps spec.title spec.whenSteps
  let t := mapSteps spec.title spec.thenSteps
  ({ title := spec.title, comments := spec.comments.getD [],
     given := g.1, whenSteps := w.1, thenSteps := t.1 },
   g.2 ++ w.2 ++ t.2)

/-- Render all behavioral specifications of a slice. -/
def buildBdds (specs : List SpecTest) : List BddTest × List String :=
  collectPairs buildBddTest specs

/-! ## Per-slice object and global pass -/

/-- The slice object pushed onto `result.slices` (0-based `index` argument,
1-based `index` field). -/
def processSliceObj (evE elemE : List (String × Elem)) (index : Nat) (slice : SliceInput) : SliceObj :=
  let events := processedEventsOf slice.events
  let internalEvents := events.filter (fun e => e.context ≠ "EXTERNAL")
  let externalEvents := events.filter (fun e => e.context = "EXTERNAL")
  let fo := synthFlow evE elemE slice
  { index := index + 1,
    title := slice.title,
    sliceType := slice.sliceType,
    flow := fo.flow,
    visualFlow := composeVisualFlow slice fo,
    commands := slice.commands.map (fun c => TitleDesc.mk c.title (jsOr c.description "Command executed")),
    events := internalEvents.map (fun e => TitleDesc.mk e.title (jsOr e.description "Event triggered")),
    externalEvents := externalEvents.map (fun e => TitleDesc.mk e.title (jsOr e.description "External event received")),
    screens := slice.screens.map (fun s => TitleDesc.mk s.title (jsOr s.description "User interface")),
    readmodels := slice.readmodels.map (fun rm => TitleDesc.mk rm.title (jsOr rm.description "State projection")),
    readmodelDetails := fo.details,
    bddTests := (buildBdds slice.specifications).1 }

/-- The warnings pushed while processing one slice, in push order: flow-logic
warnings first, then BDD conflict warnings. -/
def processSliceWarnings (evE elemE : List (String × Elem)) (slice : SliceInput) : List String :=
  (synthFlow evE elemE slice).warnings ++ (buildBdds slice.specifications).2

/-- Global unique-title tracking: one event is inserted into the external or
the internal title set according to its context (raw title, pre-marking). -/
def trackTitles (acc : List String × List String) (e : Elem) : List String × List String :=
  if e.context = "EXTERNAL" then (acc.1, addIfAbsent acc.2 e.title)
  else (addIfAbsent acc.1 e.title, acc.2)

/-- State threaded through the single pass over the slices. -/
structure ProcState where
  objs : List SliceObj
  warns : List String
  sets : List String × List String
  idx : Nat

/-- One step of the pass over the slices: push the slice object, append its
warnings, update the global title sets, advance the index. -/
def procStep (evE elemE : List (String × Elem)) (st : ProcState) (slice : SliceInput) : ProcState :=
  { objs := st.objs ++ [processSliceObj evE elemE st.idx slice],
    warns := st.warns ++ processSliceWarnings evE elemE slice,
    sets := slice.events.foldl trackTitles st.sets,
    idx := st.idx + 1 }

/-- The embedded `interpretJson` of app.js lines 287–532. -/
def interpretJson (input : ParsedInput) : InterpretResult :=
  match input with
  | .parseError msg =>
    { summary := none, slices := [], warnings := ["Invalid JSON: " ++ msg] }
  | .parsed .missing =>
    { summary := none, slices := [], warnings := ["Missing \x27slices\x27 array in root object."] }
  | .parsed .notArray =>
    { summary := none, slices := [], warnings := ["Missing \x27slices\x27 array in root object."] }
  | .parsed (.arr slices) =>
    let evE := buildEventEntries slices
    let elemE := buildElementEntries slices
    let st := slices.foldl (procStep evE elemE) (ProcState.mk [] [] ([], []) 0)
    let uniqueScreenIds :=
      slices.foldl (fun s sl => sl.screens.foldl (fun s sc => addIfAbsent s sc.id) s) []
    { summary := some
        { totalSlices := slices.length,
          totalCommands := slices.foldl (fun a s => a + s.commands.length) 0,
          totalEvents := st.sets.1.length,
          totalExternalEvents := st.sets.2.length,
          totalScreens := uniqueScreenIds.length,
          totalReadModels := slices.foldl (fun a s => a + s.readmodels.length) 0,
          totalSpecifications := slices.foldl (fun a s => a + s.specifications.length) 0,
          sliceDetails := st.objs },
      slices := st.objs,
      warnings := st.warns }

/-! ## UI-layer simulator-slice injection (app.js lines 15–44) -/

/-- Cleaned external-event title: strip every external marker, then trim. -/
def stripExternalMark (s : String) : String :=
  (s.replace "**EXTERNAL:** " "").trim

/-- Distinct cleaned external-event titles across all slices, first-seen
order. -/
def collectedExternalTitles (r : InterpretResult) : List String :=
  r.slices.foldl
    (fun acc slice => slice.externalEvents.foldl (fun acc e => addIfAbsent acc (stripExternalMark e.title)) acc)
    []

/-- The synthesized simulator slice. -/
def simulatorSliceFor (r : InterpretResult) : SliceObj :=
  { index := r.slices.length + 1,
    title := "SIMULATION OF EXTERNAL EVENTS",
    sliceType := "STATE_CHANGE (Automation)",
    flow := [],
    visualFlow := "**EXTERNAL EVENT** → **SimulateExternalEventCommand** → **Domain Command** → **Domain Event**",
    commands := [TitleDesc.mk "SimulateExternalEventCommand" ""],
    events := [],
    externalEvents := (collectedExternalTitles r).map (fun t => TitleDesc.mk t ""),
    screens := [TitleDesc.mk "External Event Console UI" ""],
    readmodels := [],
    readmodelDetails := none,
    bddTests := [] }

/-- The UI click handler's injection step: append the simulator slice to
`result.slices` when at least one external title was collected. -/
def injectSimulatorSlice (r : InterpretResult) : InterpretResult :=
  if (collectedExternalTitles r).length != 0 then
    { r with slices := r.slices ++ [simulatorSliceFor r] }
  else r

/-! ## Flow synthesis of interpreter.js (lines 77–219), used for the
AUTOMATION branch that only exists in that revision -/

/-- The flow-logic dispatch of interpreter.js: returns the flow and the
warnings pushed by the dispatched branch. -/
def interpSynthFlow (slice : SliceInput) : List FlowStep × List String :=
  if slice.sliceType = "STATE_VIEW" then
    let primaryRM := slice.readmodels.head?
    let inboundEvents := slice.events.filter (fun e =>
      e.dependencies.any (fun d => d.elementType = "READMODEL" && d.type = "INBOUND"))
    let outboundScreens := slice.screens.filter (fun s =>
      s.dependencies.any (fun d => d.elementType = "READMODEL" && d.type = "OUTBOUND"))
    let todoEvents : List Elem :=
      match primaryRM with
      | none => []
      | some rm =>
        slice.events.filter (fun e =>
          e.dependencies.any (fun d =>
            d.elementType = "READMODEL" && d.type = "OUTBOUND" && d.id = rm.id))
    let isTodo := todoEvents.length != 0
    let rmDescription :=
      if isTodo then "State projection / **TODO list (Two-event pattern)**"
      else "State projection / User view"
    let rmTitle :=
      match primaryRM with
      | some rm => if isTodo then "**TODO:** " ++ rm.title else rm.title
      | none => "ReadModel"
    let rmPlainTitle := (primaryRM.map (fun rm => rm.title)).getD ""
    let flow :=
      inboundEvents.map (fun e => FlowStep.mk "EVENT" e.title (jsOr e.description "Input event"))
      ++ (match primaryRM with
          | some _ => [FlowStep.mk "READMODEL" rmTitle rmDescription]
          | none => [])
      ++ outboundScreens.map (fun s => FlowStep.mk "SCREEN" s.title (jsOr s.description "User view"))
    let flow :=
      if isTodo then
        flow ++ todoEvents.map (fun e =>
          FlowStep.mk "EVENT" e.title ("Event that completes/removes an item from " ++ rmPlainTitle))
      else flow
    let warns :=
      if isTodo then
        ["INTERPRETER NOTE: ReadModel \"" ++ rmPlainTitle
         ++ "\" is a **To-Do List Projection**, consuming at least two events: an ADD event ("
         ++ jsJoin ", " (inboundEvents.map (fun e => e.title))
         ++ ") and a REMOVE/DONE event ("
         ++ jsJoin ", " (todoEvents.map (fun e => e.title))
         ++ " via OUTBOUND back-link to ReadModel)."]
      else []
    (flow, warns)
  else if slice.sliceType = "STATE_CHANGE" then
    let isCompletion :=
      slice.commands.any (fun c =>
        jsIncludes (jsToLower c.title) "prepared" || jsIncludes (jsToLower c.title) "mark")
      || slice.events.any (fun e =>
        jsIncludes (jsToLower e.title) "prepared" || jsIncludes (jsToLower e.title) "completed")
    (slice.screens.map (fun s => FlowStep.mk "SCREEN" s.title (jsOr s.description "User sees screen"))
     ++ slice.commands.map (fun c => FlowStep.mk "COMMAND" c.title (jsOr c.description "Command executed"))
     ++ slice.events.map (fun e =>
        let title :=
          if isCompletion && (jsIncludes (jsToLower e.title) "prepared" || jsIncludes (jsToLower e.title) "completed") then
            "**" ++ e.title ++ " (Completes To-Do List Item)**"
          else e.title
        FlowStep.mk "EVENT" title (jsOr e.description "Event triggered")),
     [])
  else if slice.sliceType = "AUTOMATION" then
    ((slice.events.filter (fun e => e.dependencies.any (fun d => d.type = "EXTERNAL"))).map
        (fun e => FlowStep.mk "EVENT" ("**EXTERNAL:** " ++ e.title) (jsOr e.description "External system trigger"))
     ++ slice.commands.map (fun c => FlowStep.mk "COMMAND" c.title (jsOr c.description "System Command executed"))
     ++ (slice.events.filter (fun e => !(e.dependencies.any (fun d => d.type = "EXTERNAL")))).map
        (fun e => FlowStep.mk "EVENT" e.title (jsOr e.description "System Event triggered")),
     ["INTERPRETER NOTE: Slice \"" ++ jsOr slice.title "Unknown"
      ++ "\" is an **AUTOMATION** slice, triggered by an external event."])
  else
    (slice.screens.map (fun s => FlowStep.mk "SCREEN" s.title "")
     ++ slice.commands.map (fun c => FlowStep.mk "COMMAND" c.title "")
     ++ slice.events.map (fun e => FlowStep.mk "EVENT" e.title ""),
     ["Slice \"" ++ jsOr slice.title "Unknown" ++ "\" has unknown/unhandled sliceType: "
      ++ slice.sliceType ++ "."])

/-! ## Lemmas about the lookup tables -/

theorem lookupIn_append (l1 l2 : List (String × Elem)) (id : String) :
    lookupIn (l1 ++ l2) id =
      match lookupIn l1 id with
      | some v => some v
      | none => lookupIn l2 id := by
  induction l1 with
  | nil => simp [lookupIn]
  | cons p tl ih =>
    by_cases hp : p.1 = id
    · simp [lookupIn, List.find?, hp]
    · simpa [lookupIn, List.find?, hp] using ih

theorem lookupIn_cons (p : String × Elem) (tl : List (String × Elem)) (id : String) :
    lookupIn (p :: tl) id = if p.1 = id then some p.2 else lookupIn tl id := by
  by_cases hp : p.1 = id
  · simp [lookupIn, List.find?_cons_of_pos, hp]
  · simp [lookupIn, List.find?_cons_of_neg, hp]

theorem lookupIn_mapOverwrite (entries : List (String × Elem)) (e : Elem) (id : String) :
    lookupIn (entries.map (fun p => if p.1 = e.id then (p.1, e) else p)) id =
      match lookupIn entries id with
      | none => none
      | some v => if e.id = id then some e else some v := by
  induction entries with
  | nil => simp [lookupIn]
  | cons p tl ih =>
    rw [List.map_cons, lookupIn_cons, lookupIn_cons]
    by_cases hpe : p.1 = e.id
    · rw [if_pos hpe]
      by_cases hp : p.1 = id
      · have he : e.id = id := hpe ▸ hp
        simp [hp, he]
      · have hne : ¬ e.id = id := fun h => hp (hpe.trans h)
        simpa [hp] using ih
    · rw [if_neg hpe]
      by_cases hp : p.1 = id
      · have hne : ¬ e.id = id := fun h => hpe (hp.trans h.symm)
        simp [hp, hne]
      · simpa [hp] using ih

theorem lookupIn_upsert (entries : List (String × Elem)) (e : Elem) (id : String) :
    lookupIn (upsert entries e) id = if e.id = id then some e else lookupIn entries id := by
  unfold upsert
  by_cases hmem : entries.any (fun p => p.1 = e.id)
  · rw [if_pos hmem, lookupIn_mapOverwrite]
    by_cases he : e.id = id
    · obtain ⟨p, hp, hpe⟩ := List.any_eq_true.mp hmem
      have hpe' : p.1 = e.id := by simpa using hpe
      have hsome : ∃ v, lookupIn entries id = some v := by
        unfold lookupIn
        have hfind : (entries.find? (fun p => p.1 = id)).isSome := by
          rw [List.find?_isSome]
          exact ⟨p, hp, by simp [hpe', he]⟩
        obtain ⟨q, hq⟩ := Option.isSome_iff_exists.mp hfind
        exact ⟨q.2, by rw [hq]; rfl⟩
      obtain ⟨v, hv⟩ := hsome
      simp [hv, he]
    · cases hlk : lookupIn entries id <;> simp [he, hlk]
  · rw [if_neg hmem, lookupIn_append]
    have hnone : lookupIn entries e.id = none := by
      unfold lookupIn
      have hfind : entries.find? (fun p => p.1 = e.id) = none := by
        rw [List.find?_eq_none]
        intro a ha hpa
        exact hmem (List.any_eq_true.mpr ⟨a, ha, hpa⟩)
      rw [hfind]
      rfl
    by_cases he : e.id = id
    · rw [← he, hnone]
      simp [lookupIn, List.find?]
    · cases hlk : lookupIn entries id <;>
        simp [lookupIn, List.find?, he, hlk]

theorem lookupIn_foldl_upsert (es : List Elem) (acc : List (String × Elem)) (id : String) :
    lookupIn (es.foldl upsert acc) id =
      match es.reverse.find? (fun e => e.id = id) with
      | some e => some e
      | none => lookupIn acc id := by
  induction es using List.reverseRecOn generalizing acc with
  | nil => simp
  | append_singleton l a ih =>
    rw [List.foldl_append]
    simp only [List.foldl_cons, List.foldl_nil, List.reverse_append, List.reverse_singleton]
    rw [lookupIn_upsert]
    by_cases ha : a.id = id
    · simp [List.find?, ha]
    · simpa [List.find?, ha] using ih acc

theorem buildEventEntries_flat (slices : List SliceInput) :
    buildEventEntries slices = (slices.flatMap (fun s => s.events)).foldl upsert [] := by
  suffices h : ∀ (acc : List (String × Elem)),
      slices.foldl (fun lk slice => slice.events.foldl upsert lk) acc =
        (slices.flatMap (fun s => s.events)).foldl upsert acc by
    exact h []
  induction slices with
  | nil => intro acc; simp
  | cons s tl ih =>
    intro acc
    simp only [List.foldl_cons, List.flatMap_cons, List.foldl_append]
    exact ih _

theorem buildElementEntries_flat (slices : List SliceInput) :
    buildElementEntries slices =
      (slices.flatMap (fun s => s.commands ++ s.events ++ s.readmodels ++ s.screens)).foldl upsert [] := by
  suffices h : ∀ (acc : List (String × Elem)),
      slices.foldl
        (fun lk slice =>
          [slice.commands, slice.events, slice.readmodels, slice.screens].foldl
            (fun lk group => group.foldl upsert lk) lk) acc =
        (slices.flatMap (fun s => s.commands ++ s.events ++ s.readmodels ++ s.screens)).foldl upsert acc by
    exact h []
  induction slices with
  | nil => intro acc; simp
  | cons s tl ih =>
    intro acc
    simp only [List.foldl_cons, List.foldl_nil, List.flatMap_cons, List.foldl_append]
    exact ih _

/-! ## Claim theorems -/

/-- C3: for every input that fails to parse as JSON, or parses to a root
object whose `slices` field is falsy or not an array, `interpretJson`
returns (totally, without any exceptional path) the well-formed empty
result: no summary, `slices = []`, and exactly one warning. -/
theorem c3_invalid_input_empty_result :
    (∀ msg, interpretJson (.parseError msg) =
      { summary := none, slices := [], warnings := ["Invalid JSON: " ++ msg] })
    ∧ interpretJson (.parsed .missing) =
      { summary := none, slices := [], warnings := ["Missing \x27slices\x27 array in root object."] }
    ∧ interpretJson (.parsed .notArray) =
      { summary := none, slices := [], warnings := ["Missing \x27slices\x27 array in root object."] }
    ∧ ∀ msg, (interpretJson (.parseError msg)).warnings.length = 1 :=
  ⟨fun _ => rfl, rfl, rfl, fun _ => rfl⟩

/-- C8: both lookup tables are built scanning slices in document order with a
last-wins overwrite policy: looking up any id yields the last element bearing
that id in document order (`reverse.find?`), never the first and never an
error; the element table scans commands, events, read models and screens of
each slice in that order. -/
theorem c8_lookup_tables_last_wins (slices : List SliceInput) (id : String) :
    lookupIn (buildEventEntries slices) id =
      (slices.flatMap (fun s => s.events)).reverse.find? (fun e => e.id = id)
    ∧ lookupIn (buildElementEntries slices) id =
      (slices.flatMap (fun s => s.commands ++ s.events ++ s.readmodels ++ s.screens)).reverse.find?
        (fun e => e.id = id) := by
  constructor
  · rw [buildEventEntries_flat, lookupIn_foldl_upsert]
    cases h : (slices.flatMap (fun s => s.events)).reverse.find? (fun e => e.id = id) <;>
      simp [h, lookupIn]
  · rw [buildElementEntries_flat, lookupIn_foldl_upsert]
    cases h : (slices.flatMap (fun s => s.commands ++ s.events ++ s.readmodels ++ s.screens)).reverse.find?
        (fun e => e.id = id) <;>
      simp [h, lookupIn]

/-! ## Lemmas about the unique-title sets -/

theorem addIfAbsent_nodup (xs : List String) (x : String) (h : xs.Nodup) :
    (addIfAbsent xs x).Nodup := by
  unfold addIfAbsent
  by_cases hc : xs.contains x
  · rwa [if_pos hc]
  · rw [if_neg hc]
    have hx : x ∉ xs := by simpa using hc
    simp [List.nodup_append, h, hx]

theorem addIfAbsent_toFinset (xs : List String) (x : String) :
    (addIfAbsent xs x).toFinset = insert x xs.toFinset := by
  unfold addIfAbsent
  by_cases hc : xs.contains x
  · rw [if_pos hc]
    have hx : x ∈ xs.toFinset := by
      rw [List.mem_toFinset]; simpa using hc
    rw [Finset.insert_eq_self.mpr hx]
  · rw [if_neg hc]
    ext a
    simp [or_comm]

theorem foldl_addIfAbsent_nodup (xs acc : List String) (h : acc.Nodup) :
    (xs.foldl addIfAbsent acc).Nodup := by
  induction xs generalizing acc with
  | nil => exact h
  | cons x tl ih => exact ih _ (addIfAbsent_nodup _ _ h)

theorem foldl_addIfAbsent_length (xs acc : List String) (h : acc.Nodup) :
    (xs.foldl addIfAbsent acc).length = (acc.toFinset ∪ xs.toFinset).card := by
  induction xs generalizing acc with
  | nil =>
    simp [List.toFinset_card_of_nodup h]
  | cons x tl ih =>
    rw [List.foldl_cons, ih _ (addIfAbsent_nodup _ _ h), addIfAbsent_toFinset]
    congr 1
    ext a
    simp
    try tauto

theorem trackTitles_foldl (es : List Elem) (a b : List String) :
    es.foldl trackTitles (a, b) =
      (((es.filter (fun e => ¬(e.context = "EXTERNAL"))).map (fun e => e.title)).foldl addIfAbsent a,
       ((es.filter (fun e => e.context = "EXTERNAL")).map (fun e => e.title)).foldl addIfAbsent b) := by
  induction es generalizing a b with
  | nil => simp
  | cons e tl ih =>
    by_cases hc : e.context = "EXTERNAL"
    · simp only [List.foldl_cons, trackTitles, if_pos hc, List.filter_cons]
      rw [ih]
      simp [hc]
    · simp only [List.foldl_cons, trackTitles, if_neg hc, List.filter_cons]
      rw [ih]
      simp [hc]

theorem procFoldl_sets (evE elemE : List (String × Elem)) (slices : List SliceInput)
    (st : ProcState) :
    (slices.foldl (procStep evE elemE) st).sets =
      (slices.flatMap (fun s => s.events)).foldl trackTitles st.sets := by
  induction slices generalizing st with
  | nil => simp
  | cons s tl ih =>
    rw [List.foldl_cons, List.flatMap_cons, List.foldl_append, ih]
    rfl

theorem procFoldl_objs_length (evE elemE : List (String × Elem)) (slices : List SliceInput)
    (st : ProcState) :
    (slices.foldl (procStep evE elemE) st).objs.length = st.objs.length + slices.length := by
  induction slices generalizing st with
  | nil => simp
  | cons s tl ih =>
    rw [List.foldl_cons, ih]
    simp [procStep]
    omega

/-- C4: `summary.totalEvents` is the number of distinct internal event titles
(exact, case-sensitive) across all slices of the document, and
`summary.totalExternalEvents` the number of distinct external event titles;
both are counted by title alone (`Finset.card` of the title set), so two
events with the same exact title in different slices contribute once each,
independent of their ids. -/
theorem c4_distinct_title_counts (slices : List SliceInput) :
    ∃ S, (interpretJson (.parsed (.arr slices))).summary = some S
      ∧ S.totalEvents =
          (((slices.flatMap (fun s => s.events)).filter (fun e => ¬(e.context = "EXTERNAL"))).map
            (fun e => e.title)).toFinset.card
      ∧ S.totalExternalEvents =
          (((slices.flatMap (fun s => s.events)).filter (fun e => e.context = "EXTERNAL")).map
            (fun e => e.title)).toFinset.card := by
  refine ⟨_, rfl, ?_, ?_⟩
  · show ((slices.foldl (procStep (buildEventEntries slices) (buildElementEntries slices))
        (ProcState.mk [] [] ([], []) 0)).sets).1.length = _
    rw [procFoldl_sets, show (ProcState.mk [] [] ([], []) 0).sets = (([] : List String), ([] : List String)) from rfl,
        trackTitles_foldl]
    rw [foldl_addIfAbsent_length _ _ List.nodup_nil]
    simp
  · show ((slices.foldl (procStep (buildEventEntries slices) (buildElementEntries slices))
        (ProcState.mk [] [] ([], []) 0)).sets).2.length = _
    rw [procFoldl_sets, show (ProcState.mk [] [] ([], []) 0).sets = (([] : List String), ([] : List String)) from rfl,
        trackTitles_foldl]
    rw [foldl_addIfAbsent_length _ _ List.nodup_nil]
    simp

/-- C10: for a successfully parsed document with N slices, the summary's
`sliceDetails` is the very same list as `result.slices` (the i-th detail is
the i-th slice object, in order) and has length N; the UI layer's simulator
injection leaves the summary — hence `sliceDetails` — untouched and at most
appends the simulator slice to the `slices` list. -/
theorem c10_slice_details_alias (slices : List SliceInput) :
    ∃ S, (interpretJson (.parsed (.arr slices))).summary = some S
      ∧ S.sliceDetails = (interpretJson (.parsed (.arr slices))).slices
      ∧ (interpretJson (.parsed (.arr slices))).slices.length = slices.length
      ∧ (injectSimulatorSlice (interpretJson (.parsed (.arr slices)))).summary =
          (interpretJson (.parsed (.arr slices))).summary
      ∧ ((injectSimulatorSlice (interpretJson (.parsed (.arr slices)))).slices =
            (interpretJson (.parsed (.arr slices))).slices
         ∨ (injectSimulatorSlice (interpretJson (.parsed (.arr slices)))).slices =
            (interpretJson (.parsed (.arr slices))).slices
              ++ [simulatorSliceFor (interpretJson (.parsed (.arr slices)))]) := by
  refine ⟨_, rfl, rfl, ?_, ?_, ?_⟩
  · show (slices.foldl (procStep (buildEventEntries slices) (buildElementEntries slices))
        (ProcState.mk [] [] ([], []) 0)).objs.length = slices.length
    rw [procFoldl_objs_length]
    simp
  · unfold injectSimulatorSlice
    split <;> rfl
  · unfold injectSimulatorSlice
    split
    · right; rfl
    · left; rfl

/-! ## Small helper lemmas -/

theorem jsOr_empty (s : String) : jsOr s "" = s := by
  unfold jsOr
  by_cases h : s = "" <;> simp [h]

theorem collectPairs_aux {α β : Type} (f : α → β × List String) (xs : List α)
    (l : List β) (w : List String) :
    xs.foldl (fun acc x => (acc.1 ++ [(f x).1], acc.2 ++ (f x).2)) (l, w) =
      (l ++ xs.map (fun x => (f x).1), w ++ xs.flatMap (fun x => (f x).2)) := by
  induction xs generalizing l w with
  | nil => simp
  | cons x tl ih => simp [ih]

theorem collectPairs_fst {α β : Type} (f : α → β × List String) (xs : List α) :
    (collectPairs f xs).1 = xs.map (fun x => (f x).1) := by
  unfold collectPairs
  rw [collectPairs_aux]
  simp

theorem collectPairs_snd {α β : Type} (f : α → β × List String) (xs : List α) :
    (collectPairs f xs).2 = xs.flatMap (fun x => (f x).2) := by
  unfold collectPairs
  rw [collectPairs_aux]
  simp

/-! ## C7: the UNKNOWN branch -/

/-- A slice with an absent `sliceType` (falsy, modelled `""`) and one
command.  Input of the C7 counterexample. -/
def c7Slice : SliceInput :=
  ⟨"Legacy", "", [⟨"c1", "DoThing", "do", "", []⟩], [], [], [], []⟩

/-- C7 counterexample: a slice whose `sliceType` field is absent falls into
the fallback branch and gets a usable flow, but NO warning is appended — the
source only pushes the unhandled-type warning under `if (slice.sliceType)`,
so the claim "a warning citing the unrecognized type is appended (including
a slice with the field absent)" is false on this input. -/
theorem c7_counterexample :
    (interpretJson (.parsed (.arr [c7Slice]))).warnings = []
    ∧ (interpretJson (.parsed (.arr [c7Slice]))).slices.map (fun s => s.flow) =
        [[FlowStep.mk "COMMAND" "DoThing" "do"]] := by
  constructor <;> decide

/-- C7 (amended): for every slice whose `sliceType` is neither of the two
recognized case-sensitive literals (`STATE_VIEW`, `STATE_CHANGE`), synthesis
takes the fallback branch: the flow is screens + commands + events with
pass-through descriptions and no annotation, a usable slice object is always
produced (the function is total), and the warning citing the unrecognized
type is appended exactly when the `sliceType` value is present (truthy); an
absent `sliceType` adds no warning. -/
theorem c7_unknown_branch_amended (evE elemE : List (String × Elem)) (idx : Nat)
    (slice : SliceInput)
    (h1 : slice.sliceType ≠ "STATE_VIEW") (h2 : slice.sliceType ≠ "STATE_CHANGE") :
    (processSliceObj evE elemE idx slice).flow =
        slice.screens.map (fun s => FlowStep.mk "SCREEN" s.title s.description)
        ++ slice.commands.map (fun c => FlowStep.mk "COMMAND" c.title c.description)
        ++ (processedEventsOf slice.events).map (fun e => FlowStep.mk "EVENT" e.title e.description)
    ∧ processSliceWarnings evE elemE slice =
        (if slice.sliceType ≠ "" then [unhandledTypeMsg slice.title slice.sliceType] else [])
        ++ (buildBdds slice.specifications).2 := by
  constructor
  · show (synthFlow evE elemE slice).flow = _
    unfold synthFlow
    rw [if_neg h1, if_neg h2]
    simp [jsOr_empty]
  · show (synthFlow evE elemE slice).warnings ++ _ = _
    unfold synthFlow
    rw [if_neg h1, if_neg h2]

/-- C7 witness: the amended theorem applied to the concrete absent-type
slice. -/
theorem c7_unknown_branch_amended_witness :
    c7Slice.sliceType ≠ "STATE_VIEW" ∧ c7Slice.sliceType ≠ "STATE_CHANGE" ∧
    processSliceWarnings [] [] c7Slice =
      (if c7Slice.sliceType ≠ "" then [unhandledTypeMsg c7Slice.title c7Slice.sliceType] else [])
      ++ (buildBdds c7Slice.specifications).2 :=
  ⟨by decide, by decide,
   (c7_unknown_branch_amended [] [] 0 c7Slice (by decide) (by decide)).2⟩

/-! ## C5: the STATE_CHANGE completion heuristic -/

/-- Completion-slice predicate as claim C5 words it (modelled from the claim
text, for comparison with the source's `isCompletionSlice`): some command
*or event* title case-insensitively contains "prepared", "mark", or
"complete"/"completed". -/
def claimC5CompletionSlice (commands events : List Elem) : Bool :=
  (commands ++ events).any (fun x =>
    jsIncludes (jsToLower x.title) "prepared" || jsIncludes (jsToLower x.title) "mark" ||
    jsIncludes (jsToLower x.title) "complete" || jsIncludes (jsToLower x.title) "completed")

/-- An event whose title contains "mark" but not "prepared"/"completed".
Input of the C5 counterexample. -/
def c5MarkEvent : Elem := ⟨"e1", "Mark", "", "", []⟩

/-- C5 counterexample: a STATE_CHANGE slice with no commands and one event
titled "Mark".  The claim's predicate (any command *or event* title contains
"prepared", "mark" or "complete"/"completed") classifies it as a completion
slice, but the source checks "mark"/"complete" only on command titles and
only "prepared"/"completed" on event titles, so `isCompletionSlice` is
false: the two predicates differ. -/
theorem c5_counterexample :
    isCompletionSlice [] [c5MarkEvent] = false
    ∧ claimC5CompletionSlice [] [c5MarkEvent] = true := by
  constructor <;> decide

/-- C5 (amended): a STATE_CHANGE slice is a completion slice exactly when
some command title case-insensitively contains "prepared", "mark" or
"complete", or some event title case-insensitively contains "prepared" or
"completed"; the synthesized flow is screens, then commands, then (retitled)
events in declaration order; and in a completion slice every event whose
title case-insensitively contains "prepared" or "completed" contributes the
annotated title and the fixed completion description to the flow. -/
theorem c5_completion_slice_amended (evE elemE : List (String × Elem)) (idx : Nat)
    (slice : SliceInput) (hType : slice.sliceType = "STATE_CHANGE") :
    (processSliceObj evE elemE idx slice).flow =
        stateChangeFlow slice.screens slice.commands (processedEventsOf slice.events)
    ∧ (∀ (cs es : List Elem), isCompletionSlice cs es = true ↔
        ((∃ c ∈ cs, jsIncludes (jsToLower c.title) "prepared" = true
            ∨ jsIncludes (jsToLower c.title) "mark" = true
            ∨ jsIncludes (jsToLower c.title) "complete" = true)
         ∨ (∃ e ∈ es, jsIncludes (jsToLower e.title) "prepared" = true
            ∨ jsIncludes (jsToLower e.title) "completed" = true)))
    ∧ (∀ (scr cs es : List Elem), (stateChangeFlow scr cs es).map (fun f => f.type) =
        scr.map (fun _ => "SCREEN") ++ cs.map (fun _ => "COMMAND") ++ es.map (fun _ => "EVENT"))
    ∧ (∀ (scr cs es : List Elem), ∀ e ∈ es,
        isCompletionSlice cs es = true →
        (jsIncludes (jsToLower e.title) "prepared" || jsIncludes (jsToLower e.title) "completed") = true →
        FlowStep.mk "EVENT" ("**" ++ e.title ++ " (Completes To-Do List Item)**")
          "Completion event - marks item as done" ∈ stateChangeFlow scr cs es) := by
  refine ⟨?_, ?_, ?_, ?_⟩
  · show (synthFlow evE elemE slice).flow = _
    unfold synthFlow
    rw [hType]
    rw [if_neg (by decide), if_pos rfl]
  · intro cs es
    unfold isCompletionSlice
    rw [Bool.or_eq_true, List.any_eq_true, List.any_eq_true]
    simp only [Bool.or_eq_true]
    refine or_congr ?_ Iff.rfl
    refine exists_congr fun x => and_congr_right fun _ => ?_
    exact or_assoc
  · intro scr cs es
    unfold stateChangeFlow
    rw [List.map_append, List.map_append, List.map_map, List.map_map, List.map_map]
    congr 1
    congr 1
    funext e
    simp only [Function.comp_apply]
    split <;> rfl
  · intro scr cs es e he hcomp hm
    have hcond : (isCompletionSlice cs es
        && (jsIncludes (jsToLower e.title) "prepared" || jsIncludes (jsToLower e.title) "completed")) = true := by
      rw [hcomp, hm]
      rfl
    unfold stateChangeFlow
    apply List.mem_append.mpr
    right
    exact List.mem_map.mpr ⟨e, he, by rw [if_pos hcond]⟩

/-- C5 witness: the amended theorem applied to a concrete STATE_CHANGE
slice. -/
theorem c5_completion_slice_amended_witness :
    (SliceInput.mk "SC" "STATE_CHANGE" [] [] [] [] []).sliceType = "STATE_CHANGE" ∧
    (processSliceObj [] [] 0 (SliceInput.mk "SC" "STATE_CHANGE" [] [] [] [] [])).flow =
      stateChangeFlow [] [] (processedEventsOf []) :=
  ⟨rfl, (c5_completion_slice_amended [] [] 0 _ rfl).1⟩

/-! ## C6: the AUTOMATION branch of interpreter.js -/

/-- C6: for every slice with `sliceType = "AUTOMATION"`, the synthesized
flow of interpreter.js lists first the events carrying an EXTERNAL-typed
dependency, each retitled with the `**EXTERNAL:**` annotation, then all
commands, then the remaining (non-external) events; and the branch appends
exactly one informational warning naming the slice and identifying it as an
automation slice triggered by an external event. -/
theorem c6_automation_flow (slice : SliceInput) (h : slice.sliceType = "AUTOMATION") :
    (interpSynthFlow slice).1 =
        (slice.events.filter (fun e => e.dependencies.any (fun d => d.type = "EXTERNAL"))).map
          (fun e => FlowStep.mk "EVENT" ("**EXTERNAL:** " ++ e.title) (jsOr e.description "External system trigger"))
        ++ slice.commands.map (fun c => FlowStep.mk "COMMAND" c.title (jsOr c.description "System Command executed"))
        ++ (slice.events.filter (fun e => !(e.dependencies.any (fun d => d.type = "EXTERNAL")))).map
          (fun e => FlowStep.mk "EVENT" e.title (jsOr e.description "System Event triggered"))
    ∧ (interpSynthFlow slice).2 =
        ["INTERPRETER NOTE: Slice \"" ++ jsOr slice.title "Unknown"
         ++ "\" is an **AUTOMATION** slice, triggered by an external event."] := by
  unfold interpSynthFlow
  rw [h]
  rw [if_neg (by decide), if_neg (by decide), if_pos rfl]
  exact ⟨rfl, rfl⟩

/-- C6 witness: the theorem applied to a concrete AUTOMATION slice. -/
theorem c6_automation_flow_witness :
    (SliceInput.mk "Auto" "AUTOMATION"
        [⟨"c1", "Reorder", "", "", []⟩]
        [⟨"e1", "StockLow", "", "", [⟨"", "EXTERNAL", "", ""⟩]⟩, ⟨"e2", "Reordered", "", "", []⟩]
        [] [] []).sliceType = "AUTOMATION" ∧
    (interpSynthFlow (SliceInput.mk "Auto" "AUTOMATION"
        [⟨"c1", "Reorder", "", "", []⟩]
        [⟨"e1", "StockLow", "", "", [⟨"", "EXTERNAL", "", ""⟩]⟩, ⟨"e2", "Reordered", "", "", []⟩]
        [] [] [])).2 =
      ["INTERPRETER NOTE: Slice \"Auto\" is an **AUTOMATION** slice, triggered by an external event."] :=
  ⟨rfl, by
    rw [(c6_automation_flow _ rfl).2]
    decide⟩

/-! ## C9: fields/examples precedence in behavioral steps -/

/-- C9: a behavioral step supplying both a non-empty `examples` list and a
non-empty `fields` list renders from the examples only (the result does not
depend on the fields), and the step contributes exactly one conflict warning;
through the per-spec and per-slice collection folds, that conflict warning
lands in the collected warning stream. -/
theorem c9_examples_precedence (step : Step) (exs : List ExampleVal) (fs : List Field)
    (hex : step.examples = some exs) (hexne : exs ≠ [])
    (hf : step.fields = some fs) (hfne : fs ≠ []) :
    (∀ specTitle, mapStep specTitle step =
      ({ title := step.title, type := step.type, fields := formatReadModelExamples exs },
       [conflictMsg specTitle step.title]))
    ∧ (∀ (specs : List SpecTest) (spec : SpecTest), spec ∈ specs → step ∈ spec.given →
        conflictMsg spec.title step.title ∈ (buildBdds specs).2) := by
  have hlenex : (exs.length != 0) = true :=
    bne_iff_ne.mpr (fun h0 => hexne (List.length_eq_zero.mp h0))
  have hlenf : (fs.length != 0) = true :=
    bne_iff_ne.mpr (fun h0 => hfne (List.length_eq_zero.mp h0))
  have hmap : ∀ specTitle, mapStep specTitle step =
      ({ title := step.title, type := step.type, fields := formatReadModelExamples exs },
       [conflictMsg specTitle step.title]) := by
    intro t
    unfold mapStep
    rw [hex, hf]
    simp only [hlenex, hlenf, if_pos]
  refine ⟨hmap, ?_⟩
  intro specs spec hspec hstep
  have h2 : (buildBdds specs).2 = specs.flatMap (fun sp => (buildBddTest sp).2) :=
    collectPairs_snd _ _
  rw [h2]
  apply List.mem_flatMap.mpr
  refine ⟨spec, hspec, ?_⟩
  show conflictMsg spec.title step.title ∈
    (mapSteps spec.title spec.given).2 ++ (mapSteps spec.title spec.whenSteps).2
      ++ (mapSteps spec.title spec.thenSteps).2
  apply List.mem_append.mpr
  left
  apply List.mem_append.mpr
  left
  have hg : (mapSteps spec.title spec.given).2 =
      spec.given.flatMap (fun st => (mapStep spec.title st).2) :=
    collectPairs_snd _ _
  rw [hg]
  apply List.mem_flatMap.mpr
  exact ⟨step, hstep, by rw [hmap spec.title]; simp⟩

/-- C9 witness: the theorem applied to a concrete conflicting step. -/
theorem c9_examples_precedence_witness :
    (Step.mk "the list" "SPEC_READMODEL"
        (some [Field.mk "id" (some "7")]) (some [ExampleVal.obj [("id", "1"), ("qty", "2")]])).examples
      = some [ExampleVal.obj [("id", "1"), ("qty", "2")]] ∧
    ([ExampleVal.obj [("id", "1"), ("qty", "2")]] : List ExampleVal) ≠ [] ∧
    (Step.mk "the list" "SPEC_READMODEL"
        (some [Field.mk "id" (some "7")]) (some [ExampleVal.obj [("id", "1"), ("qty", "2")]])).fields
      = some [Field.mk "id" (some "7")] ∧
    ([Field.mk "id" (some "7")] : List Field) ≠ [] ∧
    mapStep "Spec A" (Step.mk "the list" "SPEC_READMODEL"
        (some [Field.mk "id" (some "7")]) (some [ExampleVal.obj [("id", "1"), ("qty", "2")]])) =
      ({ title := "the list", type := "SPEC_READMODEL", fields := "(id=1, qty=2)" },
       [conflictMsg "Spec A" "the list"]) := by
  refine ⟨rfl, by decide, rfl, by decide, ?_⟩
  rw [(c9_examples_precedence _ _ _ rfl (by decide) rfl (by decide)).1 "Spec A"]
  decide

/-! ## Lemmas for the STATE_VIEW inbound-event computation (C2) -/

theorem declStep_fst (p : List String × List String) (d : Dependency) :
    (declStep p d).1 =
      if (d.elementType = "EVENT" && d.type = "INBOUND") = true then addIfAbsent p.1 d.id else p.1 := rfl

theorem declStep_snd (p : List String × List String) (d : Dependency) :
    (declStep p d).2 =
      if (d.elementType = "EVENT" && d.type = "OUTBOUND") = true then addIfAbsent p.2 d.id else p.2 := rfl

theorem mem_declFold_fst (deps : List Dependency) (p : List String × List String) (y : String) :
    y ∈ (deps.foldl declStep p).1 ↔
      y ∈ p.1 ∨ ∃ d ∈ deps, d.elementType = "EVENT" ∧ d.type = "INBOUND" ∧ d.id = y := by
  induction deps generalizing p with
  | nil => simp
  | cons d tl ih =>
    rw [List.foldl_cons, ih (declStep p d), declStep_fst, List.exists_mem_cons_iff]
    by_cases hc : (d.elementType = "EVENT" && d.type = "INBOUND") = true
    · obtain ⟨h1, h2⟩ : d.elementType = "EVENT" ∧ d.type = "INBOUND" := by simpa using hc
      rw [if_pos hc]
      rw [show (y ∈ addIfAbsent p.1 d.id) = (y ∈ p.1 ∨ y = d.id) from propext (mem_addIfAbsent _ _ _)]
      rw [show (d.elementType = "EVENT" ∧ d.type = "INBOUND" ∧ d.id = y) = (y = d.id) from
        propext (by simp [h1, h2, eq_comm])]
      exact or_assoc
    · have hnp : (d.elementType = "EVENT" ∧ d.type = "INBOUND" ∧ d.id = y) = False := by
        refine propext (iff_false_intro ?_)
        rintro ⟨h1, h2, _⟩
        exact hc (by simp [h1, h2])
      rw [if_neg hc, hnp, false_or]

theorem mem_declFold_snd (deps : List Dependency) (p : List String × List String) (y : String) :
    y ∈ (deps.foldl declStep p).2 ↔
      y ∈ p.2 ∨ ∃ d ∈ deps, d.elementType = "EVENT" ∧ d.type = "OUTBOUND" ∧ d.id = y := by
  induction deps generalizing p with
  | nil => simp
  | cons d tl ih =>
    rw [List.foldl_cons, ih (declStep p d), declStep_snd, List.exists_mem_cons_iff]
    by_cases hc : (d.elementType = "EVENT" && d.type = "OUTBOUND") = true
    · obtain ⟨h1, h2⟩ : d.elementType = "EVENT" ∧ d.type = "OUTBOUND" := by simpa using hc
      rw [if_pos hc]
      rw [show (y ∈ addIfAbsent p.2 d.id) = (y ∈ p.2 ∨ y = d.id) from propext (mem_addIfAbsent _ _ _)]
      rw [show (d.elementType = "EVENT" ∧ d.type = "OUTBOUND" ∧ d.id = y) = (y = d.id) from
        propext (by simp [h1, h2, eq_comm])]
      exact or_assoc
    · have hnp : (d.elementType = "EVENT" ∧ d.type = "OUTBOUND" ∧ d.id = y) = False := by
        refine propext (iff_false_intro ?_)
        rintro ⟨h1, h2, _⟩
        exact hc (by simp [h1, h2])
      rw [if_neg hc, hnp, false_or]

theorem depsFold_eq_opsFold (C : Dependency → Bool) (y : String) (deps : List Dependency)
    (s : List String) :
    deps.foldl (fun s d => if C d then addIfAbsent s y else s) s =
      (deps.map (fun d => (C d, y))).foldl (fun s op => if op.1 then addIfAbsent s op.2 else s) s := by
  induction deps generalizing s with
  | nil => rfl
  | cons d tl ih =>
    rw [List.foldl_cons, List.map_cons, List.foldl_cons]
    exact ih _

theorem pairFold_flatten (C : Dependency → Bool) (evE : List (String × Elem)) (acc : List String) :
    evE.foldl (fun s p => p.2.dependencies.foldl (fun s d => if C d then addIfAbsent s p.2.id else s) s) acc
    = (evE.flatMap (fun p => p.2.dependencies.map (fun d => (C d, p.2.id)))).foldl
        (fun s op => if op.1 then addIfAbsent s op.2 else s) acc := by
  induction evE generalizing acc with
  | nil => rfl
  | cons p tl ih =>
    rw [List.foldl_cons, List.flatMap_cons, List.foldl_append, depsFold_eq_opsFold]
    exact ih _

theorem mem_opsFold (ops : List (Bool × String)) (acc : List String) (y : String) :
    y ∈ ops.foldl (fun s op => if op.1 then addIfAbsent s op.2 else s) acc ↔
      y ∈ acc ∨ ∃ op ∈ ops, op.1 = true ∧ op.2 = y := by
  induction ops generalizing acc with
  | nil => simp
  | cons op tl ih =>
    rw [List.foldl_cons, ih]
    simp only [List.exists_mem_cons_iff]
    by_cases hc : op.1 = true
    · rw [if_pos hc, mem_addIfAbsent]
      simp [hc]
      tauto
    · rw [if_neg hc]
      simp [hc]

theorem addOpsFold_insert (ops : List (Bool × String)) :
    ∀ (u v : List String) (x : String), (∀ op ∈ ops, op.2 ≠ x) →
    ∃ w, ops.foldl (fun s op => if op.1 then addIfAbsent s op.2 else s) (u ++ x :: v) = u ++ x :: w
       ∧ ops.foldl (fun s op => if op.1 then addIfAbsent s op.2 else s) (u ++ v) = u ++ w := by
  induction ops with
  | nil => exact fun u v x _ => ⟨v, rfl, rfl⟩
  | cons op tl ih =>
    intro u v x hne
    have hy : op.2 ≠ x := hne op (List.mem_cons_self _ _)
    have htl : ∀ o ∈ tl, o.2 ≠ x := fun o ho => hne o (List.mem_cons_of_mem _ ho)
    rw [List.foldl_cons, List.foldl_cons]
    by_cases hc : op.1 = true
    · rw [if_pos hc, if_pos hc]
      unfold addIfAbsent
      by_cases hmem : (u ++ v).contains op.2
      · have hmem' : (u ++ x :: v).contains op.2 = true := by
          have : op.2 ∈ u ++ v := by simpa using hmem
          have : op.2 ∈ u ++ x :: v := by
            rcases List.mem_append.mp this with h | h
            · exact List.mem_append.mpr (Or.inl h)
            · exact List.mem_append.mpr (Or.inr (List.mem_cons_of_mem _ h))
          simpa using this
        rw [if_pos hmem, if_pos hmem']
        exact ih u v x htl
      · have hmem' : ¬((u ++ x :: v).contains op.2 = true) := by
          intro hmm
          have hm : op.2 ∈ u ++ x :: v := by simpa using hmm
          rcases List.mem_append.mp hm with h | h
          · exact hmem (by simp [h])
          · rcases List.mem_cons.mp h with h | h
            · exact hy h
            · exact hmem (by simp [h])
        rw [if_neg hmem, if_neg hmem']
        have e1 : (u ++ x :: v) ++ [op.2] = u ++ x :: (v ++ [op.2]) := by simp
        have e2 : (u ++ v) ++ [op.2] = u ++ (v ++ [op.2]) := by simp
        rw [e1, e2]
        exact ih u (v ++ [op.2]) x htl
    · rw [if_neg hc, if_neg hc]
      exact ih u v x htl

/-- Every entry of the event table keys an element by that element's own id. -/
theorem buildEventEntries_keys (slices : List SliceInput) :
    ∀ p ∈ buildEventEntries slices, p.1 = p.2.id := by
  have hupsert : ∀ (acc : List (String × Elem)) (e : Elem),
      (∀ p ∈ acc, p.1 = p.2.id) → ∀ p ∈ upsert acc e, p.1 = p.2.id := by
    intro acc e hacc p hp
    unfold upsert at hp
    by_cases hmem : acc.any (fun p => p.1 = e.id)
    · rw [if_pos hmem] at hp
      obtain ⟨q, hq, hqe⟩ := List.mem_map.mp hp
      by_cases hqk : q.1 = e.id
      · rw [if_pos hqk] at hqe
        rw [← hqe]
        exact hqk
      · rw [if_neg hqk] at hqe
        rw [← hqe]
        exact hacc q hq
    · rw [if_neg hmem] at hp
      rcases List.mem_append.mp hp with h | h
      · exact hacc p h
      · rcases List.mem_singleton.mp h with h
        rw [h]
  have hfold : ∀ (es : List Elem) (acc : List (String × Elem)),
      (∀ p ∈ acc, p.1 = p.2.id) → ∀ p ∈ es.foldl upsert acc, p.1 = p.2.id := by
    intro es
    induction es with
    | nil => exact fun acc h => h
    | cons e tl ih => exact fun acc h => ih _ (hupsert _ _ h)
  rw [buildEventEntries_flat]
  exact hfold _ [] (by simp)

theorem lookupIn_none_keys (entries : List (String × Elem)) (x : String)
    (h : lookupIn entries x = none) : ∀ p ∈ entries, p.1 ≠ x := by
  intro p hp
  unfold lookupIn at h
  have hfind : entries.find? (fun p => p.1 = x) = none := by
    cases hf : entries.find? (fun p => p.1 = x) with
    | none => rfl
    | some q => rw [hf] at h; exact absurd h (by simp)
  have := List.find?_eq_none.mp hfind p hp
  simpa using this

theorem resolveRef_none_event_lookup (evE elemE : List (String × Elem)) (x : String)
    (h : resolveRef evE elemE x = none) : lookupIn evE x = none := by
  unfold resolveRef at h
  cases hl : lookupIn evE x with
  | none => rfl
  | some e => rw [hl] at h; exact absurd h (by simp)

/-- Appending an INBOUND EVENT dependency moves the declared id sets by one
`addIfAbsent` on the inbound side only. -/
theorem declaredIds_append_inbound (rm : Elem) (dep : Dependency)
    (hET : dep.elementType = "EVENT") (hT : dep.type = "INBOUND") :
    declaredIds { rm with dependencies := rm.dependencies ++ [dep] } =
      (addIfAbsent (declaredIds rm).1 dep.id, (declaredIds rm).2) := by
  unfold declaredIds
  show (rm.dependencies ++ [dep]).foldl declStep ([], []) = _
  rw [List.foldl_append, List.foldl_cons, List.foldl_nil]
  unfold declStep
  rw [hET, hT]
  simp

/-- The reverse-lookup pass over the event table, flattened to a list of
(condition, candidate-id) operations. -/
def revOps (evE : List (String × Elem)) (rmId : String) : List (Bool × String) :=
  evE.flatMap (fun p => p.2.dependencies.map (fun d =>
    ((d.elementType = "READMODEL" && d.id = rmId && d.type = "OUTBOUND" : Bool), p.2.id)))

theorem inboundIdsOf_eq_opsFold (evE : List (String × Elem)) (rm : Elem) :
    inboundIdsOf evE rm =
      (revOps evE rm.id).foldl (fun s op => if op.1 then addIfAbsent s op.2 else s)
        (declaredIds rm).1 := by
  unfold inboundIdsOf revOps
  exact pairFold_flatten _ evE _

theorem mem_inboundIdsOf (evE : List (String × Elem)) (rm : Elem) (y : String) :
    y ∈ inboundIdsOf evE rm ↔
      (∃ d ∈ rm.dependencies, d.elementType = "EVENT" ∧ d.type = "INBOUND" ∧ d.id = y)
      ∨ (∃ p ∈ evE, ∃ d ∈ p.2.dependencies,
          d.elementType = "READMODEL" ∧ d.id = rm.id ∧ d.type = "OUTBOUND" ∧ y = p.2.id) := by
  rw [inboundIdsOf_eq_opsFold, mem_opsFold]
  have h1 : y ∈ (declaredIds rm).1 ↔
      ∃ d ∈ rm.dependencies, d.elementType = "EVENT" ∧ d.type = "INBOUND" ∧ d.id = y := by
    unfold declaredIds
    rw [mem_declFold_fst]
    simp
  have h2 : (∃ op ∈ revOps evE rm.id, op.1 = true ∧ op.2 = y) ↔
      (∃ p ∈ evE, ∃ d ∈ p.2.dependencies,
        d.elementType = "READMODEL" ∧ d.id = rm.id ∧ d.type = "OUTBOUND" ∧ y = p.2.id) := by
    unfold revOps
    simp only [List.mem_flatMap, List.mem_map]
    constructor
    · rintro ⟨op, ⟨p, hp, d, hd, hde⟩, hc, hy⟩
      rw [← hde] at hc hy
      obtain ⟨⟨hc1, hc2⟩, hc3⟩ : (d.elementType = "READMODEL" ∧ d.id = rm.id) ∧ d.type = "OUTBOUND" := by
        simpa using hc
      exact ⟨p, hp, d, hd, hc1, hc2, hc3, hy.symm⟩
    · rintro ⟨p, hp, d, hd, hc1, hc2, hc3, hy⟩
      refine ⟨((d.elementType = "READMODEL" && d.id = rm.id && d.type = "OUTBOUND" : Bool), p.2.id),
        ⟨p, hp, d, hd, rfl⟩, ?_, hy.symm⟩
      simp [hc1, hc2, hc3]
  rw [h1, h2]

theorem inboundEvents_drop_unresolved (ss : List SliceInput) (elemE : List (String × Elem))
    (rm : Elem) (dep : Dependency)
    (hET : dep.elementType = "EVENT") (hT : dep.type = "INBOUND")
    (hres : resolveRef (buildEventEntries ss) elemE dep.id = none) :
    inboundEventsOf (buildEventEntries ss) elemE { rm with dependencies := rm.dependencies ++ [dep] }
      = inboundEventsOf (buildEventEntries ss) elemE rm := by
  have hkeys : ∀ p ∈ buildEventEntries ss, p.1 = p.2.id := buildEventEntries_keys ss
  have hlknone : lookupIn (buildEventEntries ss) dep.id = none :=
    resolveRef_none_event_lookup _ _ _ hres
  have hids : ∀ p ∈ buildEventEntries ss, p.2.id ≠ dep.id := fun p hp h2 =>
    (lookupIn_none_keys _ dep.id hlknone p hp) ((hkeys p hp).trans h2)
  unfold inboundEventsOf
  rw [inboundIdsOf_eq_opsFold (buildEventEntries ss) { rm with dependencies := rm.dependencies ++ [dep] },
      inboundIdsOf_eq_opsFold (buildEventEntries ss) rm]
  have hid2 : ({ rm with dependencies := rm.dependencies ++ [dep] } : Elem).id = rm.id := rfl
  rw [hid2, declaredIds_append_inbound rm dep hET hT]
  by_cases hxin : (declaredIds rm).1.contains dep.id
  · have heq : addIfAbsent (declaredIds rm).1 dep.id = (declaredIds rm).1 := by
      unfold addIfAbsent
      rw [if_pos hxin]
    rw [heq]
  · have heq : addIfAbsent (declaredIds rm).1 dep.id = (declaredIds rm).1 ++ [dep.id] := by
      unfold addIfAbsent
      rw [if_neg hxin]
    rw [heq]
    have hops : ∀ op ∈ revOps (buildEventEntries ss) rm.id, op.2 ≠ dep.id := by
      intro op hop
      unfold revOps at hop
      obtain ⟨p, hp, hd⟩ := List.mem_flatMap.mp hop
      obtain ⟨d, _, hde⟩ := List.mem_map.mp hd
      have hop2 : op.2 = p.2.id := by rw [← hde]
      rw [hop2]
      exact hids p hp
    obtain ⟨w, h1, h2⟩ :=
      addOpsFold_insert (revOps (buildEventEntries ss) rm.id) (declaredIds rm).1 [] dep.id hops
    have h1' : (revOps (buildEventEntries ss) rm.id).foldl
        (fun s op => if op.1 then addIfAbsent s op.2 else s) ((declaredIds rm).1 ++ [dep.id])
        = (declaredIds rm).1 ++ dep.id :: w := h1
    have h2' : (revOps (buildEventEntries ss) rm.id).foldl
        (fun s op => if op.1 then addIfAbsent s op.2 else s) (declaredIds rm).1
        = (declaredIds rm).1 ++ w := by
      have := h2
      rwa [List.append_nil] at this
    rw [h1', h2', List.filterMap_append, List.filterMap_append, List.filterMap_cons, hres]

theorem outboundEvents_append_inbound (evE elemE : List (String × Elem)) (rm : Elem)
    (dep : Dependency) (hET : dep.elementType = "EVENT") (hT : dep.type = "INBOUND") :
    outboundEventsOf evE elemE { rm with dependencies := rm.dependencies ++ [dep] }
      = outboundEventsOf evE elemE rm := by
  unfold outboundEventsOf outboundIdsOf
  rw [declaredIds_append_inbound rm dep hET hT]

theorem stateViewFlow_drop_unresolved (ss : List SliceInput) (elemE : List (String × Elem))
    (sliceTitle : String) (screens : List Elem) (rm : Elem) (dep : Dependency)
    (hET : dep.elementType = "EVENT") (hT : dep.type = "INBOUND")
    (hres : resolveRef (buildEventEntries ss) elemE dep.id = none) :
    stateViewFlow (buildEventEntries ss) elemE sliceTitle screens
        { rm with dependencies := rm.dependencies ++ [dep] }
      = stateViewFlow (buildEventEntries ss) elemE sliceTitle screens rm := by
  have hin := inboundEvents_drop_unresolved ss elemE rm dep hET hT hres
  have hout := outboundEvents_append_inbound (buildEventEntries ss) elemE rm dep hET hT
  simp only [stateViewFlow]
  rw [hin, hout]

theorem processSlice_drop_unresolved (ss : List SliceInput) (elemE : List (String × Elem))
    (idx : Nat) (title sliceType : String) (commands events screens : List Elem)
    (rest : List Elem) (specs : List SpecTest) (rm : Elem) (dep : Dependency)
    (hET : dep.elementType = "EVENT") (hT : dep.type = "INBOUND")
    (hres : resolveRef (buildEventEntries ss) elemE dep.id = none) :
    processSliceObj (buildEventEntries ss) elemE idx
        ⟨title, sliceType, commands, events, screens,
          { rm with dependencies := rm.dependencies ++ [dep] } :: rest, specs⟩
      = processSliceObj (buildEventEntries ss) elemE idx
        ⟨title, sliceType, commands, events, screens, rm :: rest, specs⟩
    ∧ processSliceWarnings (buildEventEntries ss) elemE
        ⟨title, sliceType, commands, events, screens,
          { rm with dependencies := rm.dependencies ++ [dep] } :: rest, specs⟩
      = processSliceWarnings (buildEventEntries ss) elemE
        ⟨title, sliceType, commands, events, screens, rm :: rest, specs⟩ := by
  have hsv := stateViewFlow_drop_unresolved ss elemE title screens rm dep hET hT hres
  have hsf : synthFlow (buildEventEntries ss) elemE
      ⟨title, sliceType, commands, events, screens,
        { rm with dependencies := rm.dependencies ++ [dep] } :: rest, specs⟩
      = synthFlow (buildEventEntries ss) elemE
      ⟨title, sliceType, commands, events, screens, rm :: rest, specs⟩ := by
    unfold synthFlow
    by_cases hSV : sliceType = "STATE_VIEW"
    · rw [if_pos hSV, if_pos hSV]
      exact hsv
    · rw [if_neg hSV, if_neg hSV]
  constructor
  · unfold processSliceObj
    rw [hsf]
    rfl
  · unfold processSliceWarnings
    rw [hsf]

/-- C2: for a STATE_VIEW read model, (a) the inbound id set contains exactly
the ids the read model declares as INBOUND EVENT dependencies together with
the id of every event in the event index carrying an OUTBOUND READMODEL
dependency targeting this read model; (b) the resolved inbound-event list
contains exactly the successful resolutions of those ids; (c) resolution
goes through the event index first and falls back to the generic element
index; (d) an id that resolves to nothing is dropped silently: appending
such an INBOUND EVENT dependency to the read model changes neither the
produced slice object (flow, visual flow, details) nor the warnings. -/
theorem c2_inbound_event_resolution (ss : List SliceInput) (elemE : List (String × Elem))
    (rm : Elem) :
    (∀ y, y ∈ inboundIdsOf (buildEventEntries ss) rm ↔
      (∃ d ∈ rm.dependencies, d.elementType = "EVENT" ∧ d.type = "INBOUND" ∧ d.id = y)
      ∨ (∃ p ∈ buildEventEntries ss, ∃ d ∈ p.2.dependencies,
          d.elementType = "READMODEL" ∧ d.id = rm.id ∧ d.type = "OUTBOUND" ∧ y = p.2.id))
    ∧ (∀ e, e ∈ inboundEventsOf (buildEventEntries ss) elemE rm ↔
        ∃ y ∈ inboundIdsOf (buildEventEntries ss) rm,
          resolveRef (buildEventEntries ss) elemE y = some e)
    ∧ (∀ y e, lookupIn (buildEventEntries ss) y = some e →
        resolveRef (buildEventEntries ss) elemE y = some e)
    ∧ (∀ y, lookupIn (buildEventEntries ss) y = none →
        resolveRef (buildEventEntries ss) elemE y = lookupIn elemE y)
    ∧ (∀ (idx : Nat) (title sliceType : String) (commands events screens rest : List Elem)
        (specs : List SpecTest) (dep : Dependency),
        dep.elementType = "EVENT" → dep.type = "INBOUND" →
        resolveRef (buildEventEntries ss) elemE dep.id = none →
        processSliceObj (buildEventEntries ss) elemE idx
            ⟨title, sliceType, commands, events, screens,
              { rm with dependencies := rm.dependencies ++ [dep] } :: rest, specs⟩
          = processSliceObj (buildEventEntries ss) elemE idx
            ⟨title, sliceType, commands, events, screens, rm :: rest, specs⟩
        ∧ processSliceWarnings (buildEventEntries ss) elemE
            ⟨title, sliceType, commands, events, screens,
              { rm with dependencies := rm.dependencies ++ [dep] } :: rest, specs⟩
          = processSliceWarnings (buildEventEntries ss) elemE
            ⟨title, sliceType, commands, events, screens, rm :: rest, specs⟩) := by
  refine ⟨fun y => mem_inboundIdsOf _ rm y, fun e => ?_, fun y e h => ?_, fun y h => ?_, ?_⟩
  · unfold inboundEventsOf
    exact List.mem_filterMap
  · unfold resolveRef
    rw [h]
  · unfold resolveRef
    rw [h]
  · intro idx title sliceType commands events screens rest specs dep hET hT hres
    exact processSlice_drop_unresolved ss elemE idx title sliceType commands events screens
      rest specs rm dep hET hT hres

/-- C2 witness: the resolution theorem applied to a concrete document where
a ghost inbound dependency resolves to nothing. -/
theorem c2_inbound_event_resolution_witness :
    (⟨"EVENT", "INBOUND", "ghost", ""⟩ : Dependency).elementType = "EVENT" ∧
    (⟨"EVENT", "INBOUND", "ghost", ""⟩ : Dependency).type = "INBOUND" ∧
    resolveRef (buildEventEntries []) [] "ghost" = none ∧
    processSliceWarnings (buildEventEntries []) []
        ⟨"W", "STATE_VIEW", [], [], [],
          { (⟨"rm1", "Items", "", "", []⟩ : Elem) with
              dependencies := (⟨"rm1", "Items", "", "", []⟩ : Elem).dependencies
                ++ [⟨"EVENT", "INBOUND", "ghost", ""⟩] } :: [], []⟩
      = processSliceWarnings (buildEventEntries []) []
        ⟨"W", "STATE_VIEW", [], [], [], (⟨"rm1", "Items", "", "", []⟩ : Elem) :: [], []⟩ :=
  ⟨rfl, rfl, rfl,
   ((c2_inbound_event_resolution [] [] ⟨"rm1", "Items", "", "", []⟩).2.2.2.2
      0 "W" "STATE_VIEW" [] [] [] [] [] ⟨"EVENT", "INBOUND", "ghost", ""⟩ rfl rfl rfl).2⟩

/-! ## Lemmas for the two-event visual flow (C1) -/

theorem forwardFilter_sound (todo : List Elem) (seen : List String) (fs : List FlowStep)
    (t : String) (ht : t ∈ forwardFilter todo seen fs) :
    ∃ f ∈ fs, todo.any (fun e => jsIncludes f.title e.title) = false := by
  induction fs generalizing seen with
  | nil => simp [forwardFilter] at ht
  | cons f fs' ih =>
    unfold forwardFilter at ht
    by_cases hc : (todo.any (fun e => jsIncludes f.title e.title) || f.title = ""
        || seen.contains (f.type ++ ":" ++ f.title)) = true
    · rw [if_pos hc] at ht
      obtain ⟨g, hg, hgc⟩ := ih _ ht
      exact ⟨g, List.mem_cons_of_mem _ hg, hgc⟩
    · rw [if_neg hc] at ht
      have hcf : todo.any (fun e => jsIncludes f.title e.title) = false := by
        rcases h : todo.any (fun e => jsIncludes f.title e.title) with _ | _
        · rfl
        · exact absurd (by rw [h]; rfl) hc
      rcases List.mem_cons.mp ht with h | h
      · exact ⟨f, List.mem_cons_self _ _, hcf⟩
      · obtain ⟨g, hg, hgc⟩ := ih _ h
        exact ⟨g, List.mem_cons_of_mem _ hg, hgc⟩

theorem forwardFilter_nonempty_titles (todo : List Elem) (fs : List FlowStep)
    (hne : forwardFilter todo [] fs ≠ []) : ∀ e ∈ todo, e.title ≠ "" := by
  obtain ⟨t, ht⟩ := List.exists_mem_of_ne_nil _ hne
  obtain ⟨f, _, hfc⟩ := forwardFilter_sound todo [] fs t ht
  intro e he htitle
  have hninc := List.any_eq_false.mp hfc e he
  rw [htitle] at hninc
  exact hninc (jsIncludes_empty_pat f.title)

theorem composePivot_found (rm : Elem) (fo : FlowOut) (i : Nat)
    (hidx : (forwardFilter fo.todoEvents [] fo.flow).findIdx?
        (fun t => jsIncludes t ("**TODO:** " ++ rm.title) || jsIncludes t rm.title) = some i)
    (htoken : jsJoin ", " (fo.todoEvents.map (fun e => e.title)) ≠ "") :
    composePivot rm fo =
      jsJoin " ➜ " ((forwardFilter fo.todoEvents [] fo.flow).take (i + 1)
        ++ ("**⇠** " ++ jsJoin ", " (fo.todoEvents.map (fun e => e.title)))
          :: (forwardFilter fo.todoEvents [] fo.flow).drop (i + 1)) := by
  simp only [composePivot]
  rw [hidx]
  show (if jsJoin ", " (fo.todoEvents.map (fun e => e.title)) ≠ "" then
      jsJoin " ➜ " ((forwardFilter fo.todoEvents [] fo.flow).take (i + 1)
        ++ ("**⇠** " ++ jsJoin ", " (fo.todoEvents.map (fun e => e.title)))
          :: (forwardFilter fo.todoEvents [] fo.flow).drop (i + 1))
    else jsJoin " ➜ " (forwardFilter fo.todoEvents [] fo.flow)) = _
  rw [if_pos htoken]

theorem composePivot_notFound (rm : Elem) (fo : FlowOut)
    (hidx : (forwardFilter fo.todoEvents [] fo.flow).findIdx?
        (fun t => jsIncludes t ("**TODO:** " ++ rm.title) || jsIncludes t rm.title) = none) :
    composePivot rm fo = jsJoin " ➜ " (forwardFilter fo.todoEvents [] fo.flow) := by
  simp only [composePivot]
  rw [hidx]

theorem stateViewFlow_todo_warning (evE elemE : List (String × Elem)) (t : String)
    (screens : List Elem) (rm : Elem)
    (hIn : inboundEventsOf evE elemE rm ≠ []) (hOut : outboundEventsOf evE elemE rm ≠ []) :
    todoWarningMsg rm.title (inboundEventsOf evE elemE rm) (outboundEventsOf evE elemE rm)
      ∈ (stateViewFlow evE elemE t screens rm).warnings := by
  have hInLen : ((inboundEventsOf evE elemE rm).length != 0) = true :=
    bne_iff_ne.mpr (fun h => hIn (List.length_eq_zero.mp h))
  have hOutLen : ((outboundEventsOf evE elemE rm).length != 0) = true :=
    bne_iff_ne.mpr (fun h => hOut (List.length_eq_zero.mp h))
  have hcond : (((inboundEventsOf evE elemE rm).length != 0
      && ((outboundEventsOf evE elemE rm).length != 0))
      && ((outboundEventsOf evE elemE rm).length != 0)) = true := by
    rw [hInLen, hOutLen]
    rfl
  simp only [stateViewFlow]
  rw [if_pos hcond]
  simp

/-- C1: for a STATE_VIEW slice whose primary read model has a non-empty
resolved inbound-event set and a non-empty outbound-event set, the visual
flow is the pivot-splice string: if the read model is located in the
deduplicated forward chain (matching its marked display title or plain
title), the distinctly marked back-reference token — the joined
completion-event titles — is inserted immediately after its position
(`pre ++ [backref] ++ post`); if it is not located, the flow degrades to the
plain arrow-join of the forward chain.  In both cases the warnings gain the
entry naming the add-set and remove-set event titles. -/
theorem c1_todo_visual_flow (evE elemE : List (String × Elem)) (idx : Nat)
    (slice : SliceInput) (rm : Elem)
    (hType : slice.sliceType = "STATE_VIEW")
    (hRM : slice.readmodels.head? = some rm)
    (hIn : inboundEventsOf evE elemE rm ≠ [])
    (hOut : outboundEventsOf evE elemE rm ≠ []) :
    (∀ i, (forwardFilter (outboundEventsOf evE elemE rm) [] (synthFlow evE elemE slice).flow).findIdx?
          (fun t => jsIncludes t ("**TODO:** " ++ rm.title) || jsIncludes t rm.title) = some i →
        (processSliceObj evE elemE idx slice).visualFlow =
          jsJoin " ➜ "
            ((forwardFilter (outboundEventsOf evE elemE rm) [] (synthFlow evE elemE slice).flow).take (i + 1)
             ++ ("**⇠** " ++ jsJoin ", " ((outboundEventsOf evE elemE rm).map (fun e => e.title)))
               :: (forwardFilter (outboundEventsOf evE elemE rm) [] (synthFlow evE elemE slice).flow).drop (i + 1)))
    ∧ ((forwardFilter (outboundEventsOf evE elemE rm) [] (synthFlow evE elemE slice).flow).findIdx?
          (fun t => jsIncludes t ("**TODO:** " ++ rm.title) || jsIncludes t rm.title) = none →
        (processSliceObj evE elemE idx slice).visualFlow =
          jsJoin " ➜ " (forwardFilter (outboundEventsOf evE elemE rm) [] (synthFlow evE elemE slice).flow))
    ∧ todoWarningMsg rm.title (inboundEventsOf evE elemE rm) (outboundEventsOf evE elemE rm)
        ∈ processSliceWarnings evE elemE slice := by
  have hfo : synthFlow evE elemE slice = stateViewFlow evE elemE slice.title slice.screens rm := by
    unfold synthFlow
    rw [if_pos hType, hRM]
  have hisTodo : (stateViewFlow evE elemE slice.title slice.screens rm).isTodo = true := by
    show ((inboundEventsOf evE elemE rm).length != 0
        && ((outboundEventsOf evE elemE rm).length != 0)) = true
    rw [bne_iff_ne.mpr (fun h => hIn (List.length_eq_zero.mp h)),
        bne_iff_ne.mpr (fun h => hOut (List.length_eq_zero.mp h))]
    rfl
  have hcond : slice.sliceType = "STATE_VIEW"
      ∧ (stateViewFlow evE elemE slice.title slice.screens rm).isTodo = true
      ∧ (stateViewFlow evE elemE slice.title slice.screens rm).todoEvents.length ≠ 0 :=
    ⟨hType, hisTodo, by
      show (outboundEventsOf evE elemE rm).length ≠ 0
      exact fun h => hOut (List.length_eq_zero.mp h)⟩
  have hvf : (processSliceObj evE elemE idx slice).visualFlow =
      composeVisualFlow slice (synthFlow evE elemE slice) := rfl
  have hpivot : (processSliceObj evE elemE idx slice).visualFlow =
      composePivot rm (stateViewFlow evE elemE slice.title slice.screens rm) := by
    rw [hvf, hfo]
    unfold composeVisualFlow
    rw [hRM]
    show (if slice.sliceType = "STATE_VIEW"
        ∧ (stateViewFlow evE elemE slice.title slice.screens rm).isTodo = true
        ∧ (stateViewFlow evE elemE slice.title slice.screens rm).todoEvents.length ≠ 0 then
          composePivot rm (stateViewFlow evE elemE slice.title slice.screens rm)
        else jsJoin " ➜ " (dedupTitles [] (stateViewFlow evE elemE slice.title slice.screens rm).flow)) = _
    rw [if_pos hcond]
  refine ⟨?_, ?_, ?_⟩
  · intro i hidx
    rw [hfo] at hidx
    rw [hpivot, hfo]
    have hfwdne : forwardFilter (outboundEventsOf evE elemE rm) []
        (stateViewFlow evE elemE slice.title slice.screens rm).flow ≠ [] := by
      intro h0
      rw [h0] at hidx
      exact absurd hidx (by simp)
    have htitles := forwardFilter_nonempty_titles _ _ hfwdne
    have htoken : jsJoin ", " ((outboundEventsOf evE elemE rm).map (fun e => e.title)) ≠ "" := by
      apply jsJoin_ne_empty
      · intro h0
        exact hOut (List.map_eq_nil_iff.mp h0)
      · intro t ht
        obtain ⟨e, he, hte⟩ := List.mem_map.mp ht
        rw [← hte]
        exact htitles e he
    exact composePivot_found rm (stateViewFlow evE elemE slice.title slice.screens rm) i hidx htoken
  · intro hidx
    rw [hfo] at hidx
    rw [hpivot, hfo]
    exact composePivot_notFound rm (stateViewFlow evE elemE slice.title slice.screens rm) hidx
  · show todoWarningMsg rm.title (inboundEventsOf evE elemE rm) (outboundEventsOf evE elemE rm)
      ∈ (synthFlow evE elemE slice).warnings ++ (buildBdds slice.specifications).2
    rw [hfo]
    exact List.mem_append.mpr (Or.inl (stateViewFlow_todo_warning evE elemE slice.title slice.screens rm hIn hOut))

/-- A read model declaring one INBOUND and one OUTBOUND event dependency
(witness input for C1). -/
def c1Rm : Elem :=
  ⟨"rm1", "Items", "", "", [⟨"EVENT", "INBOUND", "e1", ""⟩, ⟨"EVENT", "OUTBOUND", "e2", ""⟩]⟩

/-- A two-entry event table (witness input for C1). -/
def c1EvE : List (String × Elem) :=
  [("e1", ⟨"e1", "ItemAdded", "", "", []⟩), ("e2", ⟨"e2", "ItemCompleted", "", "", []⟩)]

/-- A STATE_VIEW slice with the two-event pattern (witness input for C1). -/
def c1Slice : SliceInput :=
  ⟨"SV", "STATE_VIEW", [],
   [⟨"e1", "ItemAdded", "", "", []⟩, ⟨"e2", "ItemCompleted", "", "", []⟩], [], [c1Rm], []⟩

/-- C1 witness: the visual-flow theorem applied to a concrete two-event
STATE_VIEW slice. -/
theorem c1_todo_visual_flow_witness :
    c1Slice.sliceType = "STATE_VIEW" ∧
    c1Slice.readmodels.head? = some c1Rm ∧
    inboundEventsOf c1EvE [] c1Rm ≠ [] ∧
    outboundEventsOf c1EvE [] c1Rm ≠ [] ∧
    todoWarningMsg c1Rm.title (inboundEventsOf c1EvE [] c1Rm) (outboundEventsOf c1EvE [] c1Rm)
      ∈ processSliceWarnings c1EvE [] c1Slice :=
  ⟨rfl, rfl, by decide, by decide,
   (c1_todo_visual_flow c1EvE [] 0 c1Slice c1Rm rfl rfl (by decide) (by decide)).2.2⟩

end Specgen
